import Mathlib

/-!
Shallow embedding of the build orchestrator script (`src/bin/cm.js`) of the
codemirror.next multi-package repository: the package registry, the module
resolver override, the batch compile stage, the bundle stage, the dev server
and the CLI entry point, together with theorems checking the specification
claims against these definitions.
-/

set_option autoImplicit false

namespace CM

/-- Models `path.join(a, b)` for the plain path segments used by the script
(no `..`/`.` normalization is ever needed on these inputs). -/
def joinP (a b : String) : String := a ++ "/" ++ b

/-- A character counts as a JS word character (`\w`): ASCII letter, digit or
underscore. -/
def isWordChar (c : Char) : Bool := c.isAlpha || c.isDigit || c = '_'

/-- The filter `/^[^.]+\.ts$/` applied by the `Pkg` constructor to the entries
of a package's `src` directory: a nonempty dot-free base name followed by the
single extension `.ts`. -/
def recognized (f : String) : Bool :=
  match f.data.reverse with
  | 's' :: 't' :: '.' :: rest => !rest.isEmpty && rest.all (fun c => c ≠ '.')
  | _ => false

/-- `name.replace(/^(theme-|lang-)/, "")`: strip one leading `theme-` or
`lang-` from a package name. -/
def stripLangTheme (n : String) : String :=
  if n.data.take 6 = "theme-".data then String.mk (n.data.drop 6)
  else if n.data.take 5 = "lang-".data then String.mk (n.data.drop 5)
  else n

/-- The main-file selection of the `Pkg` constructor, applied to the
recognized source files: a single file is taken as is; otherwise `index.ts`
is preferred, then the prefix-stripped package name with `.ts`; otherwise the
constructor throws (modelled as `none`). -/
def chooseMain (name : String) (files : List String) : Option String :=
  if files.length = 1 then files.head?
  else if files.contains "index.ts" then some "index.ts"
  else if files.contains (stripLangTheme name ++ ".ts") then some (stripLangTheme name ++ ".ts")
  else none

/-- A package as built by the `Pkg` class: name, directory, and optional
resolved main entry source file (`null` exactly for `legacy-modes`). -/
structure Pkg where
  name : String
  dir : String
  main : Option String
deriving DecidableEq

/-- The `Pkg` constructor: `legacy-modes` gets no main entry; every other
package filters its `src` directory listing through `recognized`, picks a
main file via `chooseMain`, and throws (modelled as `none`) when no main file
is found. -/
def mkPkg (root name : String) (srcFiles : List String) : Option Pkg :=
  if name = "legacy-modes" then
    some ⟨name, joinP root name, none⟩
  else
    match chooseMain name (srcFiles.filter recognized) with
    | none => none
    | some m => some ⟨name, joinP root name, some (joinP (joinP (joinP root name) "src") m)⟩

/-- The core package names (cm.js lines 24-48). -/
def corePackageNames : List String :=
  ["state", "text", "view", "commands", "history", "collab", "gutter", "rangeset",
   "language", "language-data", "fold", "matchbrackets", "closebrackets", "panel",
   "tooltip", "search", "lint", "highlight", "stream-parser", "autocomplete",
   "comment", "rectangular-selection", "basic-setup"]

/-- The non-core package names (cm.js lines 49-63). -/
def nonCorePackageNames : List String :=
  ["lang-javascript", "lang-java", "lang-json", "lang-cpp", "lang-python",
   "lang-css", "lang-html", "lang-sql", "lang-rust", "lang-xml", "lang-markdown",
   "legacy-modes", "theme-one-dark"]

/-- All declared package names, core then non-core, as in `packages`. -/
def registryNames : List String := corePackageNames ++ nonCorePackageNames

/-- Registry construction: build a `Pkg` for every declared name, reading each
package's `src` directory listing from `srcListing`; any constructor throw
aborts the whole registry (modelled by `Option`). This happens at script load,
before `start` dispatches any command. -/
def mkRegistry (root : String) (srcListing : String → List String) : Option (List Pkg) :=
  registryNames.mapM (fun n => mkPkg root n (srcListing n))

/-- `packageNames[...]` lookup: find a package by name in the registry. -/
def lookupPkg (reg : List Pkg) (n : String) : Option Pkg :=
  reg.find? (fun p => p.name == n)

/-- One entry of the list returned by the overridden `resolveModuleNames`:
either an explicit resolution record (with its `isExternalLibraryImport`
flag) or the result of falling through to `ts.resolveModuleName`. -/
inductive ResolveResult where
  | resolved (fileName : Option String) (isExternalLibraryImport : Bool)
  | defaultResolution
deriving DecidableEq

/-- The regex `^@codemirror\/(\w+)$` of `customResolve`: when the specifier is
the scope prefix `@codemirror/` followed by a nonempty run of word characters
reaching the end of the string, return that captured identifier. -/
def siblingId (s : String) : Option String :=
  if s.data.take 12 = "@codemirror/".data then
    if !(s.data.drop 12).isEmpty && (s.data.drop 12).all isWordChar
    then some (String.mk (s.data.drop 12))
    else none
  else none

/-- The per-name body of `customResolve`'s `resolveModuleNames` override: a
specifier matching the sibling pattern whose identifier is a known package
resolves to that package's main entry with `isExternalLibraryImport: false`;
everything else falls through to the compiler's default resolution. -/
def customResolve (reg : List Pkg) (name : String) : ResolveResult :=
  match siblingId name with
  | some id =>
    match lookupPkg reg id with
    | some pkg => ResolveResult.resolved pkg.main false
    | none => ResolveResult.defaultResolution
  | none => ResolveResult.defaultResolution

/-- The regex `/^(\.?\/|\w:)/` used by the bundle externality predicate:
true when the specifier starts with `/`, with `./`, or with a word character
followed by `:`. -/
def relOrDrive : List Char → Bool
  | [] => false
  | [c] => c = '/'
  | c1 :: c2 :: _ => (c1 = '.' && c2 = '/') || c1 = '/' || (isWordChar c1 && c2 = ':')

/-- `function external(id) { return id != "tslib" && !/^(\.?\/|\w:)/.test(id) }` -/
def external (id : String) : Bool :=
  !(id == "tslib") && !(relOrDrive id.data)

/-- `main.replace(/\.ts$/, ext)`: swap a trailing `.ts` for the given
replacement (used with `.js` and `.d.ts`). -/
def replaceTs (m ext : String) : String :=
  match m.data.reverse with
  | 's' :: 't' :: '.' :: rest => String.mk rest.reverse ++ ext
  | _ => m

/-- The `output` object of a rollup config. -/
structure RollupOutput where
  format : String
  file : String
  sourcemap : Bool

/-- A rollup config as built by `rollupConfig` / `rollupDeclConfig`:
`onwarnSurfaces` tells, per warning code, whether the config's warning
handler forwards the warning to rollup's `warn` (a config without an
`onwarn` handler surfaces every warning). -/
structure RollupConfig where
  input : String
  externalPred : String → Bool
  output : RollupOutput
  onwarnSurfaces : String → Bool

/-- `rollupConfig(pkg)` (over the package's `dir` and `main` fields): code
bundle to `<dir>/dist/index.js` in esm format with a source map, externality
decided by `external`, warnings all surfaced. -/
def rollupConfig (dir main : String) : RollupConfig :=
  ⟨replaceTs main ".js", external,
   ⟨"esm", joinP (joinP dir "dist") "index.js", true⟩,
   fun _ => true⟩

/-- `rollupDeclConfig(pkg)`: declaration bundle to `<dir>/dist/index.d.ts`,
same externality predicate, and an `onwarn` that drops exactly the
`CIRCULAR_DEPENDENCY` and `UNUSED_EXTERNAL_IMPORT` warning codes. -/
def rollupDeclConfig (dir main : String) : RollupConfig :=
  ⟨replaceTs main ".d.ts", external,
   ⟨"esm", joinP (joinP dir "dist") "index.d.ts", false⟩,
   fun code => !(code == "CIRCULAR_DEPENDENCY") && !(code == "UNUSED_EXTERNAL_IMPORT")⟩

/-- `hasSlash cs` is true when `cs` contains the path separator. -/
def hasSlash : List Char → Bool
  | [] => false
  | c :: cs => c = '/' || hasSlash cs

/-- Models `path.dirname` for the paths used here: everything before the last
`/`, or `.` when the path has no separator. -/
def dirname (p : String) : String :=
  if hasSlash p.data then
    String.mk ((p.data.reverse.dropWhile (fun c => c ≠ '/')).tail.reverse)
  else "."

/-- One file of a rollup `generate` result: name, content (`code` or
`source`) and optional source map. -/
structure GenFile where
  fileName : String
  content : String
  map : Option String
deriving DecidableEq

/-- The directory `runRollup` creates (recursively, existing ok) for a
config before writing its output files: the dirname of `output.file`. -/
def mkdirTarget (config : RollupConfig) : String :=
  dirname config.output.file

/-- The file writes `runRollup` performs for one config: each generated file
goes to `<dirname of output.file>/<fileName>`, and a present source map
additionally to the same path with `.map` appended. -/
def writesFor (config : RollupConfig) (out : List GenFile) : List (String × String) :=
  (out.map (fun f =>
    (joinP (mkdirTarget config) f.fileName, f.content) ::
      (match f.map with
       | some m => [(joinP (mkdirTarget config) (f.fileName ++ ".map"), m)]
       | none => []))).flatten

/-- The compiler's emit result as observed by `tsBuild`: the emit-phase
diagnostics and the `emitSkipped` flag. -/
structure EmitResult where
  diagnostics : List String
  emitSkipped : Bool
deriving DecidableEq

/-- The observable outcome of `tsBuild`: the diagnostics printed (pre-emit
diagnostics concatenated with emit diagnostics, in discovery order) and the
process exit forced by `error` (`some 1`) or absent (`none`, build goes on). -/
structure TsBuildOutcome where
  printed : List String
  exitCode : Option Nat
deriving DecidableEq

/-- `tsBuild()`: print every pre-emit and emit diagnostic, then call
`error("TS build failed")` (which exits with status 1) exactly when
`emitResult.emitSkipped` is set. -/
def tsBuild (preEmitDiags : List String) (res : EmitResult) : TsBuildOutcome :=
  ⟨preEmitDiags ++ res.diagnostics, if res.emitSkipped then some 1 else none⟩

/-- One observable step of the batch `build()` command. -/
inductive BuildStep where
  | compile
  | fatalExit
  | bundle (pkg : String)
deriving DecidableEq

/-- The batch `build()` pipeline as a step trace: `tsBuild()` runs first and
a fatal exit truncates the trace, otherwise `runRollup` processes the bundle
descriptors of the buildable packages. -/
def buildTrace (preEmitDiags : List String) (res : EmitResult) (descs : List String) :
    List BuildStep :=
  if (tsBuild preEmitDiags res).exitCode.isSome then
    [BuildStep.compile, BuildStep.fatalExit]
  else
    BuildStep.compile :: descs.map BuildStep.bundle

/-- JS truthiness of an environment variable: set and nonempty. -/
def envTruthy : Option String → Bool
  | none => false
  | some s => !(s == "")

/-- What `listen(8090, process.env.OPEN ? undefined : "127.0.0.1")` binds:
the fixed port, and either a concrete host or `none` for all interfaces. -/
structure ServerConfig where
  port : Nat
  host : Option String
deriving DecidableEq

/-- The dev server's listen configuration as a function of the `OPEN`
environment variable. -/
def startServerConfig (openVar : Option String) : ServerConfig :=
  ⟨8090, if envTruthy openVar then none else some "127.0.0.1"⟩

/-- How one request is answered by the dev server's handler. -/
inductive ServerResponse where
  | moduleCompiled
  | staticFile
  | notFound (status : Nat)
deriving DecidableEq

/-- The request handler of `startServer`: the module server gets the request
first; if it declines, the static file server; if that errors, a 404. -/
def handleRequest (moduleHandled staticFound : Bool) : ServerResponse :=
  if moduleHandled then ServerResponse.moduleCompiled
  else if staticFound then ServerResponse.staticFile
  else ServerResponse.notFound 404

/-- The `fn.length` arity of each command's function in `start`'s dispatch
table (`none` for an unknown command). -/
def commandArity (c : String) : Option Nat :=
  if c = "run" then some 1
  else if c = "packages" ∨ c = "build" ∨ c = "devserver" ∨ c = "release" ∨
          c = "install" ∨ c = "commit" ∨ c = "push" ∨ c = "--help" then some 0
  else none

/-- `assertInstalled()`: the name of the first declared package whose
directory is missing (that package makes the process print an error and exit
with status 1), or `none` when every directory exists. -/
def assertInstalled (reg : List Pkg) (dirExists : String → Bool) : Option String :=
  (reg.find? (fun p => !dirExists p.dir)).map Pkg.name

/-- The observable action `start` ends in. -/
inductive StartAction where
  | missingPackage (name : String)
  | helpExit (status : Nat)
  | runCommand (cmd : String)
deriving DecidableEq

/-- `start()`: with no command, dispatch fails into `help(1)`; with a command
other than `install`/`--help`, `assertInstalled` runs first and a missing
package directory exits the process before the command function can run;
then an unknown command or too few arguments ends in `help(1)`, and otherwise
the command's function runs (`--help` itself being `help(0)`). -/
def start (reg : List Pkg) (dirExists : String → Bool) (command : Option String)
    (numArgs : Nat) : StartAction :=
  match command with
  | none => StartAction.helpExit 1
  | some c =>
    match (if c = "install" ∨ c = "--help" then none else assertInstalled reg dirExists) with
    | some n => StartAction.missingPackage n
    | none =>
      match commandArity c with
      | none => StartAction.helpExit 1
      | some ar =>
        if ar > numArgs then StartAction.helpExit 1
        else if c = "--help" then StartAction.helpExit 0
        else StartAction.runCommand c

/-! ### Helper lemmas -/

/-- String append acts as list append on the underlying character data. -/
theorem string_append_data (x y : String) : (x ++ y).data = x.data ++ y.data := by
  cases x
  cases y
  rfl

/-- The character data of a `String.mk` roundtrips. -/
theorem string_mk_data (x : String) : String.mk x.data = x := by
  cases x
  rfl

/-- `hasSlash` distributes over list append as boolean or. -/
theorem hasSlash_append (l t : List Char) :
    hasSlash (l ++ t) = (hasSlash l || hasSlash t) := by
  induction l with
  | nil => simp [hasSlash]
  | cons c cs ih => simp [hasSlash, ih, Bool.or_assoc]

/-- `hasSlash` is invariant under list reversal. -/
theorem hasSlash_reverse (l : List Char) : hasSlash l.reverse = hasSlash l := by
  induction l with
  | nil => rfl
  | cons c cs ih =>
    simp [List.reverse_cons, hasSlash_append, hasSlash, ih, Bool.or_comm]

/-- Dropping up to the first slash jumps over a slash-free prefix. -/
theorem dropWhile_no_slash (l t : List Char) (h : hasSlash l = false) :
    List.dropWhile (fun c => c ≠ '/') (l ++ '/' :: t) = '/' :: t := by
  induction l with
  | nil => simp [List.dropWhile]
  | cons c cs ih =>
    have h' : (decide (c = '/') || hasSlash cs) = false := h
    rw [Bool.or_eq_false_iff] at h'
    have h1 : decide (c ≠ '/') = true := by
      simp only [decide_not, h'.1, Bool.not_false]
    simp only [List.cons_append, List.dropWhile, h1]
    exact ih h'.2

/-- `path.dirname` of `x ++ "/" ++ y` recovers `x` when `y` is slash-free. -/
theorem dirname_append (x y : String) (hy : hasSlash y.data = false) :
    dirname (x ++ "/" ++ y) = x := by
  have hdata : (x ++ "/" ++ y).data = x.data ++ '/' :: y.data := by
    rw [string_append_data, string_append_data, List.append_assoc]
    rfl
  unfold dirname
  rw [hdata]
  have hcond : hasSlash (x.data ++ '/' :: y.data) = true := by
    rw [hasSlash_append]
    simp [hasSlash]
  rw [if_pos hcond]
  have hrev : (x.data ++ '/' :: y.data).reverse = y.data.reverse ++ '/' :: x.data.reverse := by
    rw [List.reverse_append, List.reverse_cons, List.append_assoc]
    rfl
  rw [hrev, dropWhile_no_slash _ _ (by rw [hasSlash_reverse]; exact hy)]
  simp [string_mk_data]

/-- A generated file's content write is among `runRollup`'s writes. -/
theorem mem_writesFor_content (config : RollupConfig) (out : List GenFile) (f : GenFile)
    (hf : f ∈ out) :
    (joinP (mkdirTarget config) f.fileName, f.content) ∈ writesFor config out := by
  unfold writesFor
  rw [List.mem_flatten]
  refine ⟨_, List.mem_map_of_mem _ hf, ?_⟩
  exact List.mem_cons_self _ _

/-- A generated file's source-map write is among `runRollup`'s writes. -/
theorem mem_writesFor_map (config : RollupConfig) (out : List GenFile) (f : GenFile)
    (m : String) (hf : f ∈ out) (hm : f.map = some m) :
    (joinP (mkdirTarget config) (f.fileName ++ ".map"), m) ∈ writesFor config out := by
  unfold writesFor
  rw [List.mem_flatten]
  refine ⟨_, List.mem_map_of_mem _ hf, ?_⟩
  rw [hm]
  exact List.mem_cons_of_mem _ (List.mem_cons_self _ _)

/-- A constructed package lacks a main entry exactly when it is the
data-only `legacy-modes` package. -/
theorem mkPkg_main_none_iff (root name : String) (files : List String) (p : Pkg)
    (h : mkPkg root name files = some p) :
    (p.main = none ↔ p.name = "legacy-modes") := by
  unfold mkPkg at h
  split at h
  · rename_i hleg
    cases h
    simpa using hleg
  · rename_i hleg
    split at h
    · exact absurd h (by simp)
    · cases h
      simpa using hleg

/-- Every package of a successfully constructed registry lacks a main entry
exactly when it is `legacy-modes`; this grounds the registry-shape hypothesis
of the resolver theorem. -/
theorem mkRegistry_main_none_iff (root : String) (srcListing : String → List String)
    (reg : List Pkg) (h : mkRegistry root srcListing = some reg) :
    ∀ p ∈ reg, (p.main = none ↔ p.name = "legacy-modes") := by
  unfold mkRegistry at h
  have hgen : ∀ (names : List String) (out : List Pkg),
      names.mapM (fun n => mkPkg root n (srcListing n)) = some out →
      ∀ p ∈ out, (p.main = none ↔ p.name = "legacy-modes") := by
    intro names
    induction names with
    | nil =>
      intro out hout p hp
      simp only [List.mapM_nil, pure, Option.some.injEq] at hout
      rw [← hout] at hp
      cases hp
    | cons n ns ih =>
      intro out hout p hp
      rw [List.mapM_cons] at hout
      obtain ⟨b, hb, rest⟩ := Option.bind_eq_some.mp hout
      obtain ⟨bs, hbs, hpure⟩ := Option.bind_eq_some.mp rest
      have hout' : b :: bs = out := by simpa [pure] using hpure
      rw [← hout'] at hp
      rcases List.mem_cons.mp hp with rfl | hmem
      · exact mkPkg_main_none_iff root n (srcListing n) p hb
      · exact ih bs hbs p hmem
  exact hgen registryNames reg h

/-- A specifier accepted by the sibling-package regex captures a nonempty
all-word-character identifier. -/
theorem siblingId_word (s id : String) (h : siblingId s = some id) :
    id.data.all isWordChar = true := by
  unfold siblingId at h
  split at h
  · split at h
    · rename_i hcond
      cases h
      rw [Bool.and_eq_true] at hcond
      exact hcond.2
    · exact absurd h (by simp)
  · exact absurd h (by simp)

/-- The sibling-package regex can never capture the identifier
`legacy-modes`, whose name holds a hyphen. -/
theorem siblingId_ne_legacy (s id : String) (h : siblingId s = some id) :
    id ≠ "legacy-modes" := by
  intro he
  have hw := siblingId_word s id h
  rw [he] at hw
  exact absurd hw (by decide)

/-- `find?` succeeds when some member satisfies the predicate. -/
theorem find?_ne_none_of_ex {α : Type} (p : α → Bool) (l : List α)
    (h : ∃ a ∈ l, p a = true) : l.find? p ≠ none := by
  obtain ⟨a, ha, hpa⟩ := h
  induction l with
  | nil => cases ha
  | cons x xs ih =>
    cases hx : p x with
    | true => simp [List.find?, hx]
    | false =>
      rcases List.mem_cons.mp ha with rfl | hmem
      · rw [hx] at hpa
        cases hpa
      · have hxs := ih hmem
        simpa [List.find?, hx] using hxs

/-- Characterization of the `/^(\.?\/|\w:)/` test. -/
theorem relOrDrive_eq_true_iff (l : List Char) :
    relOrDrive l = true ↔
      ((∃ r, l = '/' :: r) ∨ (∃ r, l = '.' :: '/' :: r) ∨
       (∃ c r, isWordChar c = true ∧ l = c :: ':' :: r)) := by
  match l with
  | [] => simp [relOrDrive]
  | [c] =>
    simp only [relOrDrive]
    constructor
    · intro hc
      exact Or.inl ⟨[], by simp [of_decide_eq_true hc]⟩
    · rintro (⟨r, hr⟩ | ⟨r, hr⟩ | ⟨c2, r, hw, hr⟩) <;> simp_all
  | c1 :: c2 :: r =>
    simp only [relOrDrive]
    constructor
    · intro hc
      rcases Bool.or_eq_true _ _ |>.mp hc with hor | hand
      · rcases Bool.or_eq_true _ _ |>.mp hor with hdot | hsl
        · rw [Bool.and_eq_true] at hdot
          refine Or.inr (Or.inl ⟨r, ?_⟩)
          have h1 : c1 = '.' := by simpa using hdot.1
          have h2 : c2 = '/' := by simpa using hdot.2
          rw [h1, h2]
        · refine Or.inl ⟨c2 :: r, ?_⟩
          have h1 : c1 = '/' := by simpa using hsl
          rw [h1]
      · rw [Bool.and_eq_true] at hand
        refine Or.inr (Or.inr ⟨c1, r, hand.1, ?_⟩)
        have h2 : c2 = ':' := by simpa using hand.2
        rw [h2]
    · rintro (⟨r2, hr⟩ | ⟨r2, hr⟩ | ⟨c3, r2, hw, hr⟩)
      · injection hr with h1 _
        simp [h1]
      · injection hr with h1 hrest
        injection hrest with h2 _
        simp [h1, h2]
      · injection hr with h1 hrest
        injection hrest with h2 _
        simp [h1, h2, hw]

/-! ### Claim theorems -/

/-- Claim C2, counterexample: the code bundle's externality predicate returns
`false`, not `true`, on the designated runtime-support helper identifier
`tslib` (`id != "tslib" && ...` is false at `id = "tslib"`), so tslib is
bundled in rather than left external. -/
theorem c2_counterexample_tslib : external "tslib" = false := by decide

/-- Claim C2 (amended): the externality predicate returns `false` exactly for
the runtime-support helper `tslib` and for specifiers matching the
relative/drive pattern (starting with `/`, with `./`, or with a word
character followed by `:`); every other specifier is external. -/
theorem c2_external_amended (id : String) :
    external id = false ↔
      (id = "tslib" ∨
       ((∃ r, id.data = '/' :: r) ∨ (∃ r, id.data = '.' :: '/' :: r) ∨
        (∃ c r, isWordChar c = true ∧ id.data = c :: ':' :: r))) := by
  rw [← relOrDrive_eq_true_iff]
  unfold external
  cases hb : (id == "tslib") <;> cases hr : relOrDrive id.data <;>
    simp_all [beq_eq_false_iff_ne, beq_iff_eq]

/-- Claim C3: the batch compile stage exits fatally (printing the error and
exiting 1) precisely when the compiler's emit was skipped; all pre-emit and
emit diagnostics are printed in order either way, and when emit proceeded the
build continues (no exit). -/
theorem c3_tsbuild_fails_iff_emit_skipped (pre : List String) (res : EmitResult) :
    ((tsBuild pre res).exitCode = some 1 ↔ res.emitSkipped = true) ∧
    ((tsBuild pre res).exitCode = none ↔ res.emitSkipped = false) ∧
    (tsBuild pre res).printed = pre ++ res.diagnostics := by
  obtain ⟨d, sk⟩ := res
  cases sk <;> simp [tsBuild]

/-- Claim C6: the batch build runs the compile stage first (head of the
trace), a fatal compile halt means no bundle descriptor is ever processed,
and only a non-skipped emit continues into the bundle steps. -/
theorem c6_compile_completes_before_bundle (pre : List String) (res : EmitResult)
    (descs : List String) :
    (buildTrace pre res descs).head? = some BuildStep.compile ∧
    (res.emitSkipped = true → ∀ p, BuildStep.bundle p ∉ buildTrace pre res descs) ∧
    (res.emitSkipped = false →
      buildTrace pre res descs = BuildStep.compile :: descs.map BuildStep.bundle) := by
  obtain ⟨d, sk⟩ := res
  cases sk <;> simp [buildTrace, tsBuild]

/-- Claim C6, witness: with a skipped emit, the bundle step for `state` does
not appear in the batch build trace. -/
theorem c6_witness :
    BuildStep.bundle "state" ∉ buildTrace [] ⟨["diag"], true⟩ ["state"] :=
  (c6_compile_completes_before_bundle [] ⟨["diag"], true⟩ ["state"]).2.1 rfl "state"

/-- Claim C8: the declaration bundle's warning handler suppresses a warning
exactly when its code is `CIRCULAR_DEPENDENCY` or `UNUSED_EXTERNAL_IMPORT`;
every other warning code is surfaced. -/
theorem c8_decl_warning_suppressed_iff (dir main code : String) :
    (rollupDeclConfig dir main).onwarnSurfaces code = false ↔
      (code = "CIRCULAR_DEPENDENCY" ∨ code = "UNUSED_EXTERNAL_IMPORT") := by
  by_cases h1 : code = "CIRCULAR_DEPENDENCY" <;>
    by_cases h2 : code = "UNUSED_EXTERNAL_IMPORT" <;>
      simp [rollupDeclConfig, h1, h2]

/-- Claim C9: the dev server listens on the fixed port 8090, on the loopback
address unless the `OPEN` environment variable holds a truthy value (then on
all interfaces), and each request is tried against the module server first,
then static file serving, then answered 404. -/
theorem c9_devserver_binding_and_fallback (openVar : Option String) :
    (startServerConfig openVar).port = 8090 ∧
    ((startServerConfig openVar).host = none ↔ envTruthy openVar = true) ∧
    ((startServerConfig openVar).host = some "127.0.0.1" ↔ envTruthy openVar = false) ∧
    (∀ st : Bool, handleRequest true st = ServerResponse.moduleCompiled) ∧
    handleRequest false true = ServerResponse.staticFile ∧
    handleRequest false false = ServerResponse.notFound 404 := by
  cases henv : envTruthy openVar <;>
    simp [startServerConfig, handleRequest, henv]

/-- Claim C1: for a registry in which exactly the data-only package
`legacy-modes` lacks a main entry (the shape the `Pkg` constructor produces),
a specifier matching the sibling-package pattern whose identifier names a
known package resolves to that package's main entry marked internal — and
such a package is always buildable, since the word-character pattern cannot
capture the hyphenated name `legacy-modes`; every other specifier falls
through to the compiler's default resolution. -/
theorem c1_sibling_resolution (reg : List Pkg)
    (hmain : ∀ p ∈ reg, (p.main = none ↔ p.name = "legacy-modes")) (s : String) :
    (∀ id pkg, siblingId s = some id → lookupPkg reg id = some pkg →
        ∃ m, pkg.main = some m ∧
          customResolve reg s = ResolveResult.resolved (some m) false) ∧
    ((∀ id, siblingId s = some id → lookupPkg reg id = none) →
      customResolve reg s = ResolveResult.defaultResolution) := by
  constructor
  · intro id pkg hsib hlook
    have hmem : pkg ∈ reg := List.mem_of_find?_eq_some hlook
    have hname : pkg.name = id := by
      have hbeq := List.find?_some hlook
      simpa using hbeq
    have hne : pkg.main ≠ none := by
      intro hnone
      have hleg : id = "legacy-modes" := by
        rw [← hname]
        exact (hmain pkg hmem).mp hnone
      exact siblingId_ne_legacy s id hsib hleg
    obtain ⟨m, hm⟩ := Option.ne_none_iff_exists'.mp hne
    exact ⟨m, hm, by simp [customResolve, hsib, hlook, hm]⟩
  · intro hnone
    unfold customResolve
    cases hs : siblingId s with
    | none => rfl
    | some id => simp [hnone id hs]

/-- Claim C1, witness: on a one-package registry, `@codemirror/state`
resolves to the `state` package's main entry, marked internal. -/
theorem c1_witness :
    customResolve [Pkg.mk "state" "/cm/state" (some "/cm/state/src/index.ts")]
        "@codemirror/state"
      = ResolveResult.resolved (some "/cm/state/src/index.ts") false := by
  obtain ⟨h1, -⟩ := c1_sibling_resolution
    [Pkg.mk "state" "/cm/state" (some "/cm/state/src/index.ts")]
    (by
      intro p hp
      rw [List.mem_singleton] at hp
      subst hp
      simp)
    "@codemirror/state"
  obtain ⟨m, hm, hres⟩ := h1 "state"
    (Pkg.mk "state" "/cm/state" (some "/cm/state/src/index.ts")) (by decide) (by decide)
  cases hm
  exact hres

/-- Claim C4: a package (other than the data-only `legacy-modes`, which skips
entry resolution) with more than one recognized source file gets `index.ts`
as main entry when present, else the prefix-stripped identifier-named file
when present, and otherwise the constructor throws so registry construction
fails before any build step. -/
theorem c4_multi_file_disambiguation (root name : String) (files : List String)
    (hn : name ≠ "legacy-modes") (hlen : 1 < (files.filter recognized).length) :
    ((files.filter recognized).contains "index.ts" = true →
      mkPkg root name files = some ⟨name, joinP root name,
        some (joinP (joinP (joinP root name) "src") "index.ts")⟩) ∧
    ((files.filter recognized).contains "index.ts" = false →
      (files.filter recognized).contains (stripLangTheme name ++ ".ts") = true →
        mkPkg root name files = some ⟨name, joinP root name,
          some (joinP (joinP (joinP root name) "src") (stripLangTheme name ++ ".ts"))⟩) ∧
    ((files.filter recognized).contains "index.ts" = false →
      (files.filter recognized).contains (stripLangTheme name ++ ".ts") = false →
        mkPkg root name files = none) := by
  have hne1 : ¬((files.filter recognized).length = 1) := by omega
  have hmk : ∀ m, chooseMain name (files.filter recognized) = some m →
      mkPkg root name files = some ⟨name, joinP root name,
        some (joinP (joinP (joinP root name) "src") m)⟩ := by
    intro m hcm
    unfold mkPkg
    rw [if_neg hn, hcm]
  have hmknone : chooseMain name (files.filter recognized) = none →
      mkPkg root name files = none := by
    intro hcm
    unfold mkPkg
    rw [if_neg hn, hcm]
  refine ⟨?_, ?_, ?_⟩
  · intro h1
    apply hmk
    unfold chooseMain
    rw [if_neg hne1, if_pos h1]
  · intro h1 h2
    apply hmk
    unfold chooseMain
    rw [if_neg hne1, if_neg (by rw [h1]; exact Bool.false_ne_true), if_pos h2]
  · intro h1 h2
    apply hmknone
    unfold chooseMain
    rw [if_neg hne1, if_neg (by rw [h1]; exact Bool.false_ne_true), if_neg (by rw [h2]; exact Bool.false_ne_true)]

/-- Claim C4, witness: `lang-python` with files `python.ts` and `helpers.ts`
has no index file, and the prefix-stripped name `python.ts` is chosen. -/
theorem c4_witness :
    (1 < ((["python.ts", "helpers.ts"].filter recognized).length)) ∧
    mkPkg "/cm" "lang-python" ["python.ts", "helpers.ts"]
      = some ⟨"lang-python", "/cm/lang-python", some "/cm/lang-python/src/python.ts"⟩ := by
  refine ⟨by decide, ?_⟩
  have h := (c4_multi_file_disambiguation "/cm" "lang-python" ["python.ts", "helpers.ts"]
    (by decide) (by decide)).2.1 (by decide) (by decide)
  rw [h]
  rfl

/-- Claim C5: a package (other than the data-only `legacy-modes`, which skips
entry resolution) with exactly one recognized source file gets that file as
its main entry, whatever the file's name. -/
theorem c5_single_file_is_main (root name : String) (files : List String) (f : String)
    (hn : name ≠ "legacy-modes") (hf : files.filter recognized = [f]) :
    mkPkg root name files
      = some ⟨name, joinP root name, some (joinP (joinP (joinP root name) "src") f)⟩ := by
  simp [mkPkg, chooseMain, hn, hf]

/-- Claim C5, witness: a lone `weird.ts` becomes the `state` package's main
entry although its name matches neither the package nor `index`. -/
theorem c5_witness :
    (["weird.ts"].filter recognized = ["weird.ts"]) ∧
    mkPkg "/cm" "state" ["weird.ts"]
      = some ⟨"state", "/cm/state", some "/cm/state/src/weird.ts"⟩ := by
  refine ⟨by decide, ?_⟩
  have h := c5_single_file_is_main "/cm" "state" ["weird.ts"] "weird.ts" (by decide) (by decide)
  rw [h]
  rfl

/-- Claim C7: the code bundle goes to `<dir>/dist/index.js` with a source map
enabled, the declaration bundle to `<dir>/dist/index.d.ts`, `runRollup`
creates the package's own `dist` directory, and each generated file and its
source map are written under that directory. -/
theorem c7_bundle_output_layout (dir main : String) (out : List GenFile) (f : GenFile)
    (m : String) (hf : f ∈ out) (hm : f.map = some m) :
    (rollupConfig dir main).output.file = joinP (joinP dir "dist") "index.js" ∧
    (rollupConfig dir main).output.sourcemap = true ∧
    (rollupDeclConfig dir main).output.file = joinP (joinP dir "dist") "index.d.ts" ∧
    mkdirTarget (rollupConfig dir main) = joinP dir "dist" ∧
    mkdirTarget (rollupDeclConfig dir main) = joinP dir "dist" ∧
    (joinP (joinP dir "dist") f.fileName, f.content)
      ∈ writesFor (rollupConfig dir main) out ∧
    (joinP (joinP dir "dist") (f.fileName ++ ".map"), m)
      ∈ writesFor (rollupConfig dir main) out := by
  have hcode : mkdirTarget (rollupConfig dir main) = joinP dir "dist" := by
    unfold mkdirTarget rollupConfig joinP
    exact dirname_append (dir ++ "/" ++ "dist") "index.js" (by decide)
  have hdecl : mkdirTarget (rollupDeclConfig dir main) = joinP dir "dist" := by
    unfold mkdirTarget rollupDeclConfig joinP
    exact dirname_append (dir ++ "/" ++ "dist") "index.d.ts" (by decide)
  refine ⟨rfl, rfl, rfl, hcode, hdecl, ?_, ?_⟩
  · have := mem_writesFor_content (rollupConfig dir main) out f hf
    rwa [hcode] at this
  · have := mem_writesFor_map (rollupConfig dir main) out f m hf hm
    rwa [hcode] at this

/-- Claim C7, witness: a generated `index.js` with a source map lands at the
`state` package's `dist/index.js` and `dist/index.js.map`. -/
theorem c7_witness :
    (joinP (joinP "/cm/state" "dist") "index.js", "code")
        ∈ writesFor (rollupConfig "/cm/state" "/cm/state/src/index.ts")
            [⟨"index.js", "code", some "mapdata"⟩] ∧
    (joinP (joinP "/cm/state" "dist") ("index.js" ++ ".map"), "mapdata")
        ∈ writesFor (rollupConfig "/cm/state" "/cm/state/src/index.ts")
            [⟨"index.js", "code", some "mapdata"⟩] := by
  have h := c7_bundle_output_layout "/cm/state" "/cm/state/src/index.ts"
    [⟨"index.js", "code", some "mapdata"⟩] ⟨"index.js", "code", some "mapdata"⟩ "mapdata"
    (List.mem_singleton.mpr rfl) rfl
  exact ⟨h.2.2.2.2.2.1, h.2.2.2.2.2.2⟩

/-- Claim C10: for a command other than `install` and `--help`, a missing
package directory makes `start` end in the exit-1 missing-package action —
naming a declared package whose directory is absent — before the command's
function can run; the `install` and `--help` commands never end there. -/
theorem c10_assert_installed_gate (reg : List Pkg) (dirExists : String → Bool)
    (c : String) (numArgs : Nat)
    (hc1 : c ≠ "install") (hc2 : c ≠ "--help")
    (hmiss : ∃ p ∈ reg, dirExists p.dir = false) :
    assertInstalled reg dirExists ≠ none ∧
    (∀ nm, assertInstalled reg dirExists = some nm →
      start reg dirExists (some c) numArgs = StartAction.missingPackage nm ∧
      ∃ p ∈ reg, p.name = nm ∧ dirExists p.dir = false) ∧
    (∀ k nm2, start reg dirExists (some "install") k ≠ StartAction.missingPackage nm2) ∧
    (∀ k nm2, start reg dirExists (some "--help") k ≠ StartAction.missingPackage nm2) := by
  refine ⟨?_, ?_, ?_, ?_⟩
  · unfold assertInstalled
    obtain ⟨p, hp, hfalse⟩ := hmiss
    have hfind := find?_ne_none_of_ex (fun q => !dirExists q.dir) reg
      ⟨p, hp, by simp [hfalse]⟩
    intro hcon
    exact hfind (Option.map_eq_none'.mp hcon)
  · intro nm hnm
    constructor
    · simp [start, hc1, hc2, hnm]
    · unfold assertInstalled at hnm
      obtain ⟨q, hq, hqe⟩ := Option.map_eq_some'.mp hnm
      refine ⟨q, List.mem_of_find?_eq_some hq, hqe, ?_⟩
      have hbq := List.find?_some hq
      simpa using hbq
  · intro k nm2
    simp [start, commandArity]
  · intro k nm2
    simp [start, commandArity]

/-- Claim C10, witness: with the `state` package's directory missing, the
`build` command ends in the exit-1 missing-package action for `state`. -/
theorem c10_witness :
    start [Pkg.mk "state" "/cm/state" (some "m")] (fun _ => false) (some "build") 0
      = StartAction.missingPackage "state" :=
  (((c10_assert_installed_gate [Pkg.mk "state" "/cm/state" (some "m")] (fun _ => false)
      "build" 0 (by decide) (by decide)
      ⟨Pkg.mk "state" "/cm/state" (some "m"), by simp, rfl⟩).2.1) "state" (by decide)).1

end CM

section Scratch
open CM
example : recognized "index.ts" = true := by decide
example : recognized ".ts" = false := by decide
example : recognized "a.b.ts" = false := by decide
example : stripLangTheme "lang-python" = "python" := by decide
example : stripLangTheme "theme-one-dark" = "one-dark" := by decide
example : mkPkg "/cm" "state" ["state.ts"] =
    some ⟨"state", "/cm/state", some "/cm/state/src/state.ts"⟩ := by decide
example : mkPkg "/cm" "view" ["index.ts", "other.ts"] =
    some ⟨"view", "/cm/view", some "/cm/view/src/index.ts"⟩ := by decide
example : mkPkg "/cm" "legacy-modes" ["a.ts", "b.ts"] =
    some ⟨"legacy-modes", "/cm/legacy-modes", none⟩ := by decide
example : external "tslib" = false := by decide
example : external "./util" = false := by decide
example : external "../util" = true := by decide
example : external "/abs/x" = false := by decide
example : external "C:/x" = false := by decide
example : external "@codemirror/state" = true := by decide
example : external "style-mod" = true := by decide
example : siblingId "@codemirror/state" = some "state" := by decide
example : siblingId "@codemirror/lang-python" = none := by decide
example : siblingId "@codemirror/state/x" = none := by decide
example : siblingId "@codemirror/" = none := by decide
example : siblingId "rollup" = none := by decide
example : customResolve [⟨"state", "/cm/state", some "/cm/state/src/state.ts"⟩]
    "@codemirror/state" = ResolveResult.resolved (some "/cm/state/src/state.ts") false := by decide
example : customResolve [⟨"state", "/cm/state", some "/cm/state/src/state.ts"⟩]
    "@codemirror/view" = ResolveResult.defaultResolution := by decide
example : replaceTs "/cm/state/src/index.ts" ".js" = "/cm/state/src/index.js" := by decide
example : replaceTs "/cm/state/src/index.ts" ".d.ts" = "/cm/state/src/index.d.ts" := by decide
example : dirname "/cm/state/dist/index.js" = "/cm/state/dist" := by decide
example : (rollupConfig "/cm/state" "/cm/state/src/index.ts").output.file
    = "/cm/state/dist/index.js" := by decide
example : mkdirTarget (rollupConfig "/cm/state" "/cm/state/src/index.ts")
    = "/cm/state/dist" := by decide
example : writesFor (rollupConfig "/cm/state" "/cm/state/src/index.ts")
    [⟨"index.js", "code", some "map"⟩]
    = [("/cm/state/dist/index.js", "code"), ("/cm/state/dist/index.js.map", "map")] := by decide
example : tsBuild ["d1"] ⟨["d2"], true⟩ = ⟨["d1", "d2"], some 1⟩ := by decide
example : buildTrace [] ⟨[], true⟩ ["state"] = [BuildStep.compile, BuildStep.fatalExit] := by decide
example : buildTrace [] ⟨["w"], false⟩ ["state"]
    = [BuildStep.compile, BuildStep.bundle "state"] := by decide
example : startServerConfig none = ⟨8090, some "127.0.0.1"⟩ := by decide
example : startServerConfig (some "1") = ⟨8090, none⟩ := by decide
example : startServerConfig (some "") = ⟨8090, some "127.0.0.1"⟩ := by decide
example : handleRequest false false = ServerResponse.notFound 404 := by decide
example : start [⟨"state", "/cm/state", some "m"⟩] (fun _ => false) (some "build") 0
    = StartAction.missingPackage "state" := by decide
example : start [⟨"state", "/cm/state", some "m"⟩] (fun _ => false) (some "install") 0
    = StartAction.runCommand "install" := by decide
example : start [⟨"state", "/cm/state", some "m"⟩] (fun _ => false) (some "--help") 0
    = StartAction.helpExit 0 := by decide
example : start [⟨"state", "/cm/state", some "m"⟩] (fun _ => true) (some "run") 0
    = StartAction.helpExit 1 := by decide
example : start [] (fun _ => true) none 5 = StartAction.helpExit 1 := by decide
example : mkRegistry "/cm" (fun _ => ["index.ts"]) =
    some (registryNames.map (fun n =>
      if n = "legacy-modes" then ⟨n, joinP "/cm" n, none⟩
      else ⟨n, joinP "/cm" n, some (joinP (joinP (joinP "/cm" n) "src") "index.ts")⟩)) := by
  decide
end Scratch
